import Mathlib

/-!
Verification of the synchronization engine of the `new-tab` repository.

The definitions below are a shallow embedding of the TypeScript sources:

* `src/types/index.ts` (core data interfaces: `AppSettings`, `QuickLaunchItem`,
  `SearchEngine`, ...),
* `src/types/sync.ts` (sync data model: `SyncData`, `SyncConflict`,
  `SyncState`, ...),
* `src/utils/sync/syncManager.ts` (`SyncManager`: `sync`, `detectConflicts`,
  `resolveConflicts`, `mergeData`, `mergeQuickLaunchItems`,
  `mergeSearchEngines`),
* `src/utils/sync/localSync.ts` (`LocalSyncProvider`: `exportData`,
  `importData`, `validateImportData`),
* `src/utils/sync/webdav.ts` (`WebDAVClient.request` / `categorizeError` /
  `shouldRetry`, `WebDAVSyncProvider.uploadSyncData` /
  `getAvailableDevices`).

JavaScript numbers only ever hold integral millisecond timestamps, HTTP
status codes and `order` ranks in the verified code paths, so they are
modelled as `Int`/`Nat`.  `JSON.stringify` on the data shapes below is
deterministic (object keys are produced in a fixed insertion order by the
constructing code) and injective up to dropped `undefined` optional
properties, which the embedding represents as `Option.none` on both sides;
comparisons of serialized strings are therefore modelled by decidable
structural equality.
-/

namespace NewTab

/-! ## Core data model (src/types/index.ts) -/

/-- Theme mode union `'light' | 'dark' | 'auto'`. -/
inductive ThemeMode
  | light
  | dark
  | auto
deriving DecidableEq, Repr

/-- Interface `ThemeSettings`; `autoSwitchTime` is the optional
`{lightStart, darkStart}` pair of `HH:mm` strings. -/
structure ThemeSettings where
  mode : ThemeMode
  autoSwitchTime : Option (String × String)
deriving DecidableEq, Repr

/-- Background type union `'bing' | 'solid' | 'gradient' | 'custom'`. -/
inductive BgType
  | bing
  | solid
  | gradient
  | custom
deriving DecidableEq, Repr

/-- Interface `BackgroundSettings`. -/
structure BackgroundSettings where
  type : BgType
  bingEnabled : Bool
  customUrl : Option String
  solidColor : Option String
  gradientColors : Option (String × String)
  blurAmount : Int
  opacity : Int
  changeInterval : Int
deriving DecidableEq, Repr

/-- Provider union `'webdav' | 'local'` of the `SyncSettings` interface that
lives inside `AppSettings`. -/
inductive AppSyncProviderKind
  | webdav
  | localProvider
deriving DecidableEq, Repr

/-- Interface `SyncSettings` of `src/types/index.ts` (the per-app settings
blob field, distinct from the sync manager settings of `src/types/sync.ts`);
`webdav` is the optional `{url, username, password}` triple. -/
structure AppSyncSettings where
  enabled : Bool
  provider : AppSyncProviderKind
  webdav : Option (String × String × String)
  lastSync : Option Int
deriving DecidableEq, Repr

/-- Time format union `'12h' | '24h'`. -/
inductive TimeFormat
  | h12
  | h24
deriving DecidableEq, Repr

/-- Interface `AppSettings`; `shortcuts` is the `{search, settings}` pair. -/
structure AppSettings where
  language : String
  theme : ThemeSettings
  background : BackgroundSettings
  sync : AppSyncSettings
  searchEngine : String
  showWeather : Bool
  showTime : Bool
  timeFormat : TimeFormat
  shortcuts : String × String
deriving DecidableEq, Repr

/-- Interface `QuickLaunchItem`. -/
structure QuickLaunchItem where
  id : String
  name : String
  url : String
  icon : Option String
  favicon : Option String
  category : Option String
  order : Int
  isCustom : Bool
deriving DecidableEq, Repr

/-- Interface `SearchEngine`.  Note: it has no `order` field. -/
structure SearchEngine where
  id : String
  name : String
  url : String
  icon : String
  placeholder : String
  favicon : Option String
deriving DecidableEq, Repr

/-! ## Sync data model (src/types/sync.ts) -/

/-- Resolution-mode union `'latest' | 'merge' | 'manual'`. -/
inductive ConflictResolution
  | latest
  | merge
  | manual
deriving DecidableEq, Repr

/-- Interface `SyncMetadata`. -/
structure SyncMetadata where
  lastModified : Int
  deviceName : String
  appVersion : String
  conflictResolution : ConflictResolution
deriving DecidableEq, Repr

/-- Interface `SyncData`: one snapshot of the synchronized blob. -/
structure SyncData where
  version : String
  timestamp : Int
  deviceId : String
  settings : AppSettings
  quickLaunch : List QuickLaunchItem
  customSearchEngines : List SearchEngine
  metadata : SyncMetadata
deriving DecidableEq, Repr

/-- Payload of a `SyncConflict`: the `localData`/`remoteData` pair for the
top-level field named by `path`. -/
inductive ConflictData
  | ofSettings (localValue remoteValue : AppSettings)
  | ofQuickLaunch (localValue remoteValue : List QuickLaunchItem)
  | ofEngines (localValue remoteValue : List SearchEngine)
deriving DecidableEq, Repr

/-- Interface `SyncConflict` (without the optional `resolution` tag, which
`detectConflicts` never sets). -/
structure SyncConflict where
  path : String
  data : ConflictData
deriving DecidableEq, Repr

/-! ## Conflict detection (SyncManager.detectConflicts) -/

/-- Model of `SyncManager.detectConflicts`.  A conflict is pushed for one of
the three top-level fields when the two snapshot timestamps differ by
strictly less than 60000 ms and the `JSON.stringify` images of the field
values differ; string comparison of the serialized values is modelled by
structural equality (see the header note). -/
def detectConflicts (localData remoteData : SyncData) : List SyncConflict :=
  if (localData.timestamp - remoteData.timestamp).natAbs < 60000 then
    (if localData.settings = remoteData.settings then []
      else [⟨"settings", .ofSettings localData.settings remoteData.settings⟩])
    ++ (if localData.quickLaunch = remoteData.quickLaunch then []
      else [⟨"quickLaunch", .ofQuickLaunch localData.quickLaunch remoteData.quickLaunch⟩])
    ++ (if localData.customSearchEngines = remoteData.customSearchEngines then []
      else [⟨"customSearchEngines",
        .ofEngines localData.customSearchEngines remoteData.customSearchEngines⟩])
  else []

/-! ## JavaScript `Map` model

The merge helpers of `SyncManager` use a JavaScript `Map<string, T>`, which
preserves insertion order: `set` on an existing key overwrites in place,
`set` on a fresh key appends, and `Array.from(map.values())` returns the
values in that order.  It is modelled as an association list. -/

/-- Model of `Map.prototype.has`. -/
def mapHas {α : Type} (m : List (String × α)) (k : String) : Bool :=
  m.any (fun p => p.1 == k)

/-- Model of `Map.prototype.set`: overwrite in place when the key is
present, append otherwise. -/
def mapSet {α : Type} (m : List (String × α)) (k : String) (v : α) :
    List (String × α) :=
  if mapHas m k then m.map (fun p => if p.1 == k then (k, v) else p)
  else m ++ [(k, v)]

/-- Model of `Map.prototype.get`. -/
def mapGet {α : Type} (m : List (String × α)) (k : String) : Option α :=
  (m.find? (fun p => p.1 == k)).map Prod.snd

/-- Model of `Array.from(map.values())`. -/
def mapValues {α : Type} (m : List (String × α)) : List α :=
  m.map Prod.snd

/-- Keys of the map model, in insertion order. -/
def mapKeys {α : Type} (m : List (String × α)) : List String :=
  m.map Prod.fst

/-! ## Merge helpers (SyncManager.mergeData and friends) -/

/-- One step of the local pass of `mergeQuickLaunchItems`: the body of
`local.forEach(item => ...)` — insert the local item when no entry with its
id exists or its `order` is strictly greater. -/
def qlStep (m : List (String × QuickLaunchItem)) (it : QuickLaunchItem) :
    List (String × QuickLaunchItem) :=
  match mapGet m it.id with
  | none => mapSet m it.id it
  | some existing =>
      if it.order > existing.order then mapSet m it.id it else m

/-- The `Map` built by `mergeQuickLaunchItems` before its values are
sorted: all remote items inserted first, then the local pass. -/
def qlMergeMap (localItems remoteItems : List QuickLaunchItem) :
    List (String × QuickLaunchItem) :=
  let m1 := remoteItems.foldl (fun m it => mapSet m it.id it) []
  localItems.foldl qlStep m1

/-- Model of `SyncManager.mergeQuickLaunchItems`: all remote items are
inserted into a `Map` keyed by `id`, then each local item is inserted when
no entry with its id exists or its `order` is strictly greater, and the
values are sorted by ascending `order`.  `Array.prototype.sort` with the
comparator `(a, b) => a.order - b.order` is a stable ascending sort, which
insertion sort implements exactly. -/
def mergeQuickLaunchItems (localItems remoteItems : List QuickLaunchItem) :
    List QuickLaunchItem :=
  List.insertionSort (fun a b => a.order ≤ b.order)
    (mapValues (qlMergeMap localItems remoteItems))

/-- The `Map` built by `mergeSearchEngines`: all remote engines inserted
first, then every local engine inserted unconditionally (a colliding local
entry always overwrites the remote one). -/
def engineMergeMap (localEngines remoteEngines : List SearchEngine) :
    List (String × SearchEngine) :=
  let m1 := remoteEngines.foldl (fun m e => mapSet m e.id e) []
  localEngines.foldl (fun m e => mapSet m e.id e) m1

/-- Model of `SyncManager.mergeSearchEngines`; the values are returned in
`Map` insertion order, unsorted. -/
def mergeSearchEngines (localEngines remoteEngines : List SearchEngine) :
    List SearchEngine :=
  mapValues (engineMergeMap localEngines remoteEngines)

/-- Model of `SyncManager.mergeData`. -/
def mergeData (localData remoteData : SyncData) : SyncData :=
  { version := "1.0.0"
    timestamp := max localData.timestamp remoteData.timestamp
    deviceId := localData.deviceId
    settings :=
      if localData.timestamp > remoteData.timestamp then localData.settings
      else remoteData.settings
    quickLaunch := mergeQuickLaunchItems localData.quickLaunch remoteData.quickLaunch
    customSearchEngines :=
      mergeSearchEngines localData.customSearchEngines remoteData.customSearchEngines
    metadata :=
      if localData.timestamp > remoteData.timestamp then localData.metadata
      else remoteData.metadata }

/-- Model of `SyncManager.resolveConflicts` (the conflict list argument only
feeds the manual-mode UI and does not influence the returned snapshot). -/
def resolveConflicts (mode : ConflictResolution)
    (localData remoteData : SyncData) : SyncData :=
  match mode with
  | .latest =>
      if localData.timestamp > remoteData.timestamp then localData
      else remoteData
  | .merge => mergeData localData remoteData
  | .manual => localData

/-- Last element of a list whose key equals `k` (the value a sequence of
`Map.set` calls leaves behind for that key). -/
def lastWith {α : Type} (key : α → String) (k : String) :
    List α → Option α
  | [] => none
  | it :: rest =>
      match lastWith key k rest with
      | some x => some x
      | none => if key it == k then some it else none

/-! ## Transport client error model (src/utils/sync/webdav.ts) -/

/-- Enum `WebDAVError` of `webdav.ts`.  Note that it has no `Locked`
member. -/
inductive WebDAVError
  | NETWORK_ERROR
  | AUTH_ERROR
  | SERVER_ERROR
  | NOT_FOUND
  | FORBIDDEN
  | TIMEOUT
  | PARSE_ERROR
  | CONFLICT
deriving DecidableEq, Repr

/-- Interface `WebDAVErrorInfo` (without the untyped `details` field). -/
structure WebDAVErrorInfo where
  type : WebDAVError
  message : String
  status : Option Nat
deriving DecidableEq, Repr

/-- Model of `WebDAVClient.categorizeError`, the status switch of
`webdav.ts`; the original messages are kept verbatim. -/
def categorizeError (status : Nat) (statusText : String) : WebDAVErrorInfo :=
  if status = 401 then
    ⟨.AUTH_ERROR, "认证失败，请检查用户名和密码", some status⟩
  else if status = 403 then
    ⟨.FORBIDDEN, "访问被拒绝，请检查权限设置", some status⟩
  else if status = 404 then
    ⟨.NOT_FOUND, "文件或目录不存在", some status⟩
  else if status = 409 then
    ⟨.CONFLICT, "操作冲突，可能目录已存在", some status⟩
  else if status = 423 then
    ⟨.SERVER_ERROR, "资源被锁定", some status⟩
  else if status = 507 then
    ⟨.SERVER_ERROR, "存储空间不足", some status⟩
  else if status ≥ 500 then
    ⟨.SERVER_ERROR, "服务器错误: " ++ statusText, some status⟩
  else
    ⟨.SERVER_ERROR, "HTTP " ++ toString status ++ ": " ++ statusText,
      some status⟩

/-- Classification table as the amended claim states it: 401, 403, 404 and
409 map to their dedicated kinds and every other failing status — 423 and
507 included — maps to `SERVER_ERROR`. -/
def claimedErrorKind (status : Nat) : WebDAVError :=
  if status = 401 then .AUTH_ERROR
  else if status = 403 then .FORBIDDEN
  else if status = 404 then .NOT_FOUND
  else if status = 409 then .CONFLICT
  else .SERVER_ERROR

/-- The `{name, message}` pair of a thrown JavaScript error. -/
structure JsError where
  name : String
  message : String
deriving DecidableEq, Repr

/-- Model of `String.prototype.includes` for a nonempty pattern. -/
def strIncludes (s pat : String) : Bool :=
  (s.splitOn pat).length != 1

/-- Model of `WebDAVClient.shouldRetry`. -/
def shouldRetry (e : JsError) : Bool :=
  e.name == "TypeError" || strIncludes e.message "fetch" ||
    strIncludes e.message "network"

/-- Outcome of one `fetch` attempt, as `WebDAVClient.request` observes it:
an HTTP response with a status and status text, an abort raised by the
timeout controller, or a thrown error. -/
inductive FetchOutcome
  | http (status : Nat) (statusText : String)
  | abort
  | exc (e : JsError)

/-- Trace of one `WebDAVClient.request` call: the response fields the
caller sees, the number of `fetch` attempts made, and the delays (ms) slept
between consecutive attempts. -/
structure RequestTrace where
  status : Nat
  errorType : Option WebDAVError
  attempts : Nat
  delays : List Nat
deriving DecidableEq, Repr

/-- Model of `WebDAVClient.request`.  `beh n` is the outcome of the fetch
performed with retry counter `n`; `response.ok` is `200 ≤ status < 300`; a
non-ok response is classified and never retried; an abort yields a
`TIMEOUT` response with status 0; a thrown error is retried after
`1000 * (retries + 1)` ms while `retries < 3` and `shouldRetry` holds,
otherwise it surfaces as a `NETWORK_ERROR` response with status 0. -/
def requestModel (beh : Nat → FetchOutcome) (retries : Nat) : RequestTrace :=
  match beh retries with
  | .http status statusText =>
      if 200 ≤ status ∧ status < 300 then ⟨status, none, 1, []⟩
      else ⟨status, some (categorizeError status statusText).type, 1, []⟩
  | .abort => ⟨0, some .TIMEOUT, 1, []⟩
  | .exc e =>
      if h : retries < 3 ∧ shouldRetry e = true then
        let t := requestModel beh (retries + 1)
        ⟨t.status, t.errorType, t.attempts + 1, 1000 * (retries + 1) :: t.delays⟩
      else ⟨0, some .NETWORK_ERROR, 1, []⟩
termination_by 3 - retries
decreasing_by omega

/-! ## Remote device listing (WebDAVSyncProvider) -/

/-- Model of `str.endsWith(suffix)`. -/
def strEndsWith (s suffix : String) : Bool :=
  suffix.toList.isSuffixOf s.toList

/-- One attempt of the regex `sync_([^_]+)_\d+\.json$` at a fixed start
position: the literal `sync_`, a nonempty run of non-underscore characters
(the capture), an underscore, a nonempty digit run, and the literal `.json`
ending the string.  The greedy `[^_]+` and `\d+` admit no backtracking
here because the characters they accept are disjoint from the delimiters
that follow them. -/
def matchSyncAt (cs : List Char) : Option (List Char) :=
  if cs.take 5 = "sync_".toList then
    let rest := cs.drop 5
    let idRun := rest.takeWhile (fun c => c != '_')
    let rest2 := rest.drop idRun.length
    if idRun.isEmpty then none
    else
      match rest2 with
      | '_' :: rest3 =>
          let digitRun := rest3.takeWhile
            (fun c => decide (('0' : Char) ≤ c) && decide (c ≤ ('9' : Char)))
          if digitRun.isEmpty then none
          else if rest3.drop digitRun.length = ".json".toList then some idRun
          else none
      | _ => none
  else none

/-- Leftmost match of `sync_([^_]+)_\d+\.json$` over the subject,
returning the first capture group (the semantics of `String.prototype.match`
without the `g` flag). -/
def matchSync : List Char → Option (List Char)
  | [] => none
  | c :: cs =>
      match matchSyncAt (c :: cs) with
      | some r => some r
      | none => matchSync cs

/-- Model of `WebDAVSyncProvider.getAvailableDevices` applied to the file
paths returned by `listFiles`: keep `.json` paths, extract the first
capture of `sync_([^_]+)_\d+\.json$`, and de-duplicate through a `Set`
(insertion order preserved by `Array.from`). -/
def getAvailableDevicesModel (paths : List String) : List String :=
  paths.foldl (fun devices p =>
    if strEndsWith p ".json" then
      match matchSync p.toList with
      | some idc =>
          let idStr := String.mk idc
          if devices.contains idStr then devices else devices ++ [idStr]
      | none => devices
    else devices) []

/-- Model of the object path written by `WebDAVSyncProvider.uploadSyncData`
for a device at a given epoch-millisecond instant:
`<syncPath>/sync_<deviceId>_<millis>.json`. -/
def uploadFilePath (syncPath deviceId : String) (millis : Nat) : String :=
  syncPath ++ "/sync_" ++ deviceId ++ "_" ++ toString millis ++ ".json"

/-! ## Local file provider (src/utils/sync/localSync.ts) -/

/-- Interface `LocalSyncData` of `src/types/sync.ts`: the export
envelope. -/
structure LocalSyncData where
  exportDate : String
  version : String
  data : SyncData
deriving DecidableEq, Repr

/-- Raw quick-launch item as `importData` sees it after `JSON.parse`: the
structurally validated fields are optional; for `order`, `none` models a
missing or non-numeric value. -/
structure RawItem where
  id : Option String
  name : Option String
  url : Option String
  icon : Option String
  favicon : Option String
  category : Option String
  order : Option Int
  isCustom : Bool
deriving DecidableEq, Repr

/-- Raw settings blob: the three fields checked by `validateImportData`
are optional (absent models a missing property). -/
structure RawSettings where
  language : Option String
  theme : Option ThemeSettings
  background : Option BackgroundSettings
  sync : AppSyncSettings
  searchEngine : String
  showWeather : Bool
  showTime : Bool
  timeFormat : TimeFormat
  shortcuts : String × String
deriving DecidableEq, Repr

/-- Raw snapshot inside an import envelope: `settings` may be absent and
`quickLaunch` may be absent or not an array (both modelled by `none`). -/
structure RawSyncData where
  version : String
  timestamp : Int
  deviceId : String
  settings : Option RawSettings
  quickLaunch : Option (List RawItem)
  customSearchEngines : List SearchEngine
  metadata : SyncMetadata
deriving DecidableEq, Repr

/-- Raw import envelope (`LocalSyncData` after `JSON.parse`): the three
fields checked for presence are optional. -/
structure RawLocalSyncData where
  exportDate : Option String
  version : Option String
  data : Option RawSyncData
deriving DecidableEq, Repr

/-- JavaScript truthiness of a possibly-missing string: false for a
missing value and for the empty string. -/
def truthyStr : Option String → Bool
  | none => false
  | some s => s != ""

/-- Image of a typed `QuickLaunchItem` under serialize-then-parse. -/
def toRawItem (it : QuickLaunchItem) : RawItem :=
  ⟨some it.id, some it.name, some it.url, it.icon, it.favicon, it.category,
    some it.order, it.isCustom⟩

/-- Image of a typed `AppSettings` under serialize-then-parse. -/
def toRawSettings (s : AppSettings) : RawSettings :=
  ⟨some s.language, some s.theme, some s.background, s.sync, s.searchEngine,
    s.showWeather, s.showTime, s.timeFormat, s.shortcuts⟩

/-- Image of a typed `SyncData` under serialize-then-parse. -/
def toRawSyncData (d : SyncData) : RawSyncData :=
  ⟨d.version, d.timestamp, d.deviceId, some (toRawSettings d.settings),
    some (d.quickLaunch.map toRawItem), d.customSearchEngines, d.metadata⟩

/-- Image of a serialized `LocalSyncData` envelope under `JSON.parse`.
`JSON.stringify` followed by `JSON.parse` is the identity on this content
(plain strings, integral numbers, booleans, arrays and objects), so the
image simply marks every validated field present. -/
def toRawLocal (d : LocalSyncData) : RawLocalSyncData :=
  ⟨some d.exportDate, some d.version, some (toRawSyncData d.data)⟩

/-- Model of `LocalSyncProvider.exportData`.  `now` models the `Date.now()`
calls, `isoDate` the `new Date().toISOString()` call (never the empty
string), `deviceName` the user-agent inspection of `getDeviceName`, and
`deviceId` the stored or generated device id. -/
def exportData (settings : AppSettings) (quickLaunch : List QuickLaunchItem)
    (customSearchEngines : List SearchEngine) (deviceId : String)
    (deviceName : String) (now : Int) (isoDate : String) : LocalSyncData :=
  { exportDate := isoDate
    version := "1.0.0"
    data :=
      { version := "1.0.0"
        timestamp := now
        deviceId := deviceId
        settings := settings
        quickLaunch := quickLaunch
        customSearchEngines := customSearchEngines
        metadata :=
          { lastModified := now, deviceName := deviceName,
            appVersion := "1.0.0", conflictResolution := .latest } } }

/-- Model of `LocalSyncProvider.validateImportData`: the envelope must
carry truthy `data`, `version` and `exportDate`; the payload must carry a
truthy `settings` object and a `quickLaunch` array; the settings must carry
truthy `language`, `theme` and `background`; and every quick-launch item
must carry truthy `id`, `name` and `url` and a numeric `order`. -/
def validateImportData (d : RawLocalSyncData) : Bool :=
  match d.data with
  | none => false
  | some syncData =>
      truthyStr d.version && truthyStr d.exportDate &&
      (match syncData.settings, syncData.quickLaunch with
       | some st, some ql =>
           truthyStr st.language && st.theme.isSome && st.background.isSome &&
           ql.all (fun item =>
             truthyStr item.id && truthyStr item.name && truthyStr item.url &&
             item.order.isSome)
       | _, _ => false)

/-- Result record of `importData` (the fields of `SyncResult` it uses). -/
structure ImportResult where
  success : Bool
  message : String
  syncedData : Option RawSyncData
deriving DecidableEq, Repr

/-- Model of `LocalSyncProvider.importData` on an already parsed envelope.
On a validation failure the thrown `Invalid data format` error is caught
and returned as the failure message; on success the parsed `data` is
returned unchanged.  The version-compatibility check only logs a warning
and does not affect the result; a `JSON.parse` failure takes the same
catch path with a parser message and is not needed by any claim. -/
def importData (d : RawLocalSyncData) : ImportResult :=
  if validateImportData d then
    { success := true, message := "Data imported successfully",
      syncedData := d.data }
  else
    { success := false, message := "Invalid data format", syncedData := none }

/-! ## Sync orchestrator round (SyncManager.sync) -/

/-- Status union of `SyncState`. -/
inductive SyncStatus
  | idle
  | syncing
  | success
  | error
deriving DecidableEq, Repr

/-- Interface `SyncState` of `src/types/sync.ts`. -/
structure SyncState where
  status : SyncStatus
  lastSync : Option Int
  lastError : Option String
  progress : Option Nat
  conflictData : Option (List SyncConflict)
deriving DecidableEq, Repr

/-- The fields of the manager-level `SyncSettings` that `sync()` reads. -/
structure ManagerSyncSettings where
  enabled : Bool
  conflictResolution : ConflictResolution
  retryAttempts : Nat
deriving DecidableEq, Repr

/-- Interface `SyncResult` of `src/types/sync.ts`. -/
structure SyncResult where
  success : Bool
  message : String
  conflicts : Option (List SyncConflict)
  syncedData : Option SyncData
deriving DecidableEq, Repr

/-- The `SyncEventType` union, with the progress payload attached. -/
inductive SyncEventType
  | syncStart
  | syncProgress (progress : Nat)
  | syncSuccess
  | syncError
  | conflictDetected
  | conflictResolved
deriving DecidableEq, Repr

/-- Outcome of `uploadData(finalData)` as `sync()` observes it: either a
successful result or a failure message (an unsuccessful result and a
thrown error both end in the same `catch`). -/
inductive UploadOutcome
  | ok
  | fail (message : String)

/-- Everything one `sync()` call produces: the returned `SyncResult`, the
final `SyncState`, the emitted events in order, and whether a retry was
scheduled. -/
structure SyncRunOutcome where
  result : SyncResult
  state : SyncState
  events : List SyncEventType
  retryScheduled : Bool

/-- Model of `SyncManager.sync`.  `st` is the state when the call starts,
`download` the result `downloadData()` resolves to, and `upload` the
outcome of `uploadData` on the chosen snapshot.  `now` models the
`Date.now()` calls of the round.  The two guards return before any state
change, event or provider call; otherwise the round downloads, detects and
resolves conflicts, uploads, and ends in the `success` or `error` state,
scheduling a retry on failure when `retryAttempts > 0`. -/
def syncModel (cfg : ManagerSyncSettings) (st : SyncState)
    (deviceId deviceName : String) (now : Int) (settings : AppSettings)
    (quickLaunch : List QuickLaunchItem)
    (customSearchEngines : List SearchEngine) (download : SyncResult)
    (upload : SyncData → UploadOutcome) : SyncRunOutcome :=
  if cfg.enabled = false then
    { result := ⟨false, "Sync is disabled", none, none⟩, state := st,
      events := [], retryScheduled := false }
  else if st.status = .syncing then
    { result := ⟨false, "Sync already in progress", none, none⟩, state := st,
      events := [], retryScheduled := false }
  else
    let localData : SyncData :=
      ⟨"1.0.0", now, deviceId, settings, quickLaunch, customSearchEngines,
        ⟨now, deviceName, "1.0.0", cfg.conflictResolution⟩⟩
    let stStart : SyncState :=
      { st with
        status := .syncing
        progress := some 0
        lastError := none }
    let afterDownload :
        SyncData × List SyncConflict × List SyncEventType :=
      match download.success, download.syncedData with
      | true, some remote =>
          let conflicts := detectConflicts localData remote
          if conflicts.isEmpty then
            ((if localData.timestamp > remote.timestamp then localData
              else remote), [], [])
          else
            (resolveConflicts cfg.conflictResolution localData remote,
              conflicts, [.conflictDetected, .conflictResolved])
      | _, _ => (localData, [], [])
    let finalData := afterDownload.1
    let conflicts := afterDownload.2.1
    let preEvents :=
      [SyncEventType.syncStart, .syncProgress 25, .syncProgress 50] ++
        afterDownload.2.2 ++ [.syncProgress 75]
    match upload finalData with
    | .ok =>
        { result := ⟨true, "Sync completed successfully",
            (if conflicts.isEmpty then none else some conflicts),
            some finalData⟩
          state :=
            { stStart with
              status := .success
              lastSync := some now
              progress := some 100
              conflictData :=
                if conflicts.isEmpty then none else some conflicts }
          events := preEvents ++ [.syncSuccess]
          retryScheduled := false }
    | .fail msg =>
        { result := ⟨false, msg, none, none⟩
          state :=
            { stStart with
              status := .error
              lastError := some msg
              progress := none }
          events := preEvents ++ [.syncError]
          retryScheduled := decide (0 < cfg.retryAttempts) }

/-! ## Concrete sample data used by boundary checks and witnesses -/

/-- Sample `AppSettings` value, parameterized by language so that two
settings blobs can be made to differ. -/
def mkSettings (lang : String) : AppSettings :=
  { language := lang
    theme := { mode := .light, autoSwitchTime := none }
    background :=
      { type := .bing, bingEnabled := true, customUrl := none,
        solidColor := none, gradientColors := none, blurAmount := 0,
        opacity := 100, changeInterval := 24 }
    sync :=
      { enabled := false, provider := .localProvider, webdav := none,
        lastSync := none }
    searchEngine := "google"
    showWeather := true
    showTime := true
    timeFormat := .h24
    shortcuts := ("ctrl+k", "ctrl+,") }

/-- Sample quick-launch item with a given id and order. -/
def sampleItem (i : String) (ord : Int) : QuickLaunchItem :=
  { id := i, name := "name-" ++ i, url := "https://example.com/" ++ i,
    icon := none, favicon := none, category := none, order := ord,
    isCustom := true }

/-- Sample custom search engine with a given id. -/
def sampleEngine (i : String) : SearchEngine :=
  { id := i, name := "engine-" ++ i, url := "https://example.com/" ++ i,
    icon := "icon", placeholder := "search", favicon := none }

/-- Sample snapshot with a given timestamp and settings language. -/
def mkSnap (t : Int) (lang : String) : SyncData :=
  { version := "1.0.0"
    timestamp := t
    deviceId := "devA"
    settings := mkSettings lang
    quickLaunch := []
    customSearchEngines := []
    metadata :=
      { lastModified := t, deviceName := "Chrome Browser",
        appVersion := "1.0.0", conflictResolution := .latest } }

/-- Sample snapshot with nonempty shortcut and engine lists. -/
def sampleSnap : SyncData :=
  { mkSnap 5 "en" with
    quickLaunch := [sampleItem "a" 1, sampleItem "b" 2]
    customSearchEngines := [sampleEngine "g"] }

/-- Manager settings with sync disabled. -/
def sampleCfgDisabled : ManagerSyncSettings :=
  { enabled := false, conflictResolution := .latest, retryAttempts := 3 }

/-- Manager settings with sync enabled. -/
def sampleCfgEnabled : ManagerSyncSettings :=
  { enabled := true, conflictResolution := .latest, retryAttempts := 3 }

/-- Sync state of a round already in flight. -/
def sampleStateSyncing : SyncState :=
  { status := .syncing, lastSync := none, lastError := none,
    progress := some 50, conflictData := none }

/-- Download result standing for an empty remote folder. -/
def sampleDownloadNone : SyncResult :=
  { success := false, message := "No sync data found", conflicts := none,
    syncedData := none }

/-- Import envelope whose payload is missing the `quickLaunch` array. -/
def sampleBadEnvelope : RawLocalSyncData :=
  { exportDate := some "2026-01-01T00:00:00.000Z"
    version := some "1.0.0"
    data := some
      { version := "1.0.0"
        timestamp := 5
        deviceId := "dev1"
        settings := some (toRawSettings (mkSettings "en"))
        quickLaunch := none
        customSearchEngines := []
        metadata :=
          { lastModified := 5, deviceName := "Chrome Browser",
            appVersion := "1.0.0", conflictResolution := .latest } } }

end NewTab

namespace NewTab

/-! ## Theorems -/

/-! ### Association-list map lemmas -/

theorem lastWith_some_mem {α : Type} (key : α → String) (k : String)
    (items : List α) (x : α) (h : lastWith key k items = some x) :
    x ∈ items ∧ key x = k := by
  induction items with
  | nil => simp [lastWith] at h
  | cons it rest ih =>
      simp only [lastWith] at h
      cases hrest : lastWith key k rest with
      | some y =>
          rw [hrest] at h
          have h' : some y = some x := h
          obtain rfl : y = x := Option.some.inj h'
          obtain ⟨hm, hk⟩ := ih hrest
          exact ⟨List.mem_cons_of_mem it hm, hk⟩
      | none =>
          rw [hrest] at h
          by_cases hit : key it = k
          · have : (key it == k) = true := by simp [hit]
            rw [if_pos this] at h
            cases h
            exact ⟨List.mem_cons_self _ _, hit⟩
          · have : ¬ ((key it == k) = true) := by simp [hit]
            rw [if_neg this] at h
            cases h

theorem lastWith_eq_none_iff {α : Type} (key : α → String) (k : String)
    (items : List α) :
    lastWith key k items = none ↔ ∀ it ∈ items, key it ≠ k := by
  induction items with
  | nil => simp [lastWith]
  | cons it rest ih =>
      simp only [lastWith]
      cases hrest : lastWith key k rest with
      | some y =>
          obtain ⟨hm, hk⟩ := lastWith_some_mem key k rest y hrest
          simp only [reduceCtorEq, false_iff, not_forall]
          exact ⟨y, List.mem_cons_of_mem it hm, by simp [hk]⟩
      | none =>
          rw [ih] at hrest
          by_cases hit : key it = k
          · have hb : (key it == k) = true := by simp [hit]
            simp only [hb, if_true, reduceCtorEq, false_iff, not_forall]
            exact ⟨it, List.mem_cons_self _ _, by simp [hit]⟩
          · have hb : ¬ ((key it == k) = true) := by simp [hit]
            simp only [if_neg hb, true_iff]
            intro a ha
            rcases List.mem_cons.mp ha with rfl | ha
            · exact hit
            · exact hrest a ha

theorem lastWith_eq_find? {α : Type} (key : α → String) (k : String)
    (items : List α) (h : (items.map key).Nodup) :
    lastWith key k items = items.find? (fun it => key it == k) := by
  induction items with
  | nil => rfl
  | cons it rest ih =>
      have hnotin : key it ∉ rest.map key := (List.nodup_cons.mp h).1
      have hrestnd : (rest.map key).Nodup := (List.nodup_cons.mp h).2
      simp only [lastWith, List.find?_cons]
      by_cases hit : key it = k
      · have hb : (key it == k) = true := by simp [hit]
        have hnone : lastWith key k rest = none := by
          rw [lastWith_eq_none_iff]
          intro a ha hak
          exact hnotin (by rw [← hit, ← hak] at *; exact List.mem_map.mpr ⟨a, ha, rfl⟩)
        simp only [hnone, hb, if_true]
      · have hb : (key it == k) = false := by simp [hit]
        simp only [hb, ih hrestnd]
        cases rest.find? (fun a => key a == k) <;> rfl

theorem mapHas_eq_false_iff {α : Type} (m : List (String × α)) (k : String) :
    mapHas m k = false ↔ ∀ p ∈ m, p.1 ≠ k := by
  simp [mapHas, List.any_eq_false]

theorem find?_map_overwrite {α : Type} (m : List (String × α)) (k k' : String)
    (v : α) (h : k' ≠ k) :
    (m.map (fun p => if p.1 == k then (k, v) else p)).find? (fun p => p.1 == k')
      = m.find? (fun p => p.1 == k') := by
  induction m with
  | nil => rfl
  | cons q rest ih =>
      simp only [List.map_cons, List.find?_cons]
      by_cases hq : q.1 = k
      · have e1 : (if (q.1 == k) = true then (k, v) else q) = (k, v) := by
          simp [hq]
        rw [e1]
        have hne : k ≠ k' := fun hkk => h hkk.symm
        have h1 : ((k : String) == k') = false := by simp [hne]
        have h2 : (q.1 == k') = false := by simp [hq, hne]
        simp only [h1, h2]
        exact ih
      · have e1 : (if (q.1 == k) = true then (k, v) else q) = q := by
          simp [hq]
        rw [e1]
        cases hqq : (q.1 == k') <;> simp only [hqq]
        · exact ih

theorem find?_map_overwrite_self {α : Type} (m : List (String × α))
    (k : String) (v : α) (h : mapHas m k = true) :
    (m.map (fun p => if p.1 == k then (k, v) else p)).find? (fun p => p.1 == k)
      = some (k, v) := by
  induction m with
  | nil => simp [mapHas] at h
  | cons q rest ih =>
      simp only [List.map_cons, List.find?_cons]
      by_cases hq : q.1 = k
      · have e1 : (if (q.1 == k) = true then (k, v) else q) = (k, v) := by
          simp [hq]
        rw [e1]
        simp
      · have e1 : (if (q.1 == k) = true then (k, v) else q) = q := by
          simp [hq]
        rw [e1]
        have h1 : (q.1 == k) = false := by simp [hq]
        simp only [h1]
        apply ih
        simp only [mapHas, List.any_cons, h1, Bool.false_or] at h
        exact h

theorem find?_singleton_ne {α : Type} (k k' : String) (v : α) (h : k' ≠ k) :
    ([(k, v)] : List (String × α)).find? (fun p => p.1 == k') = none := by
  rw [List.find?_eq_none]
  intro p hp
  simp only [List.mem_singleton] at hp
  subst hp
  have hne : (k : String) ≠ k' := fun hkk => h hkk.symm
  simp [hne]

theorem mapGet_set_self {α : Type} (m : List (String × α)) (k : String) (v : α) :
    mapGet (mapSet m k v) k = some v := by
  unfold mapSet
  by_cases h : mapHas m k = true
  · rw [if_pos h]
    unfold mapGet
    rw [find?_map_overwrite_self m k v h]
    rfl
  · rw [if_neg h]
    have h' : mapHas m k = false := by simpa using h
    rw [mapHas_eq_false_iff] at h'
    have hfind : m.find? (fun p => p.1 == k) = none := by
      rw [List.find?_eq_none]
      intro p hp
      simpa using h' p hp
    unfold mapGet
    rw [List.find?_append, hfind]
    simp

theorem mapGet_set_ne {α : Type} (m : List (String × α)) (k k' : String)
    (v : α) (h : k' ≠ k) :
    mapGet (mapSet m k v) k' = mapGet m k' := by
  unfold mapSet
  by_cases hh : mapHas m k = true
  · rw [if_pos hh]
    unfold mapGet
    rw [find?_map_overwrite m k k' v h]
  · rw [if_neg hh]
    unfold mapGet
    rw [List.find?_append, find?_singleton_ne k k' v h]
    cases m.find? (fun p => p.1 == k') <;> rfl

theorem mapKeys_set {α : Type} (m : List (String × α)) (k : String) (v : α) :
    mapKeys (mapSet m k v) =
      if mapHas m k then mapKeys m else mapKeys m ++ [k] := by
  unfold mapSet
  by_cases h : mapHas m k
  · simp only [h, if_true, mapKeys, List.map_map]
    refine List.map_congr_left ?_
    intro p _
    by_cases hp : p.1 = k
    · simp [hp]
    · simp [beq_iff_eq, hp]
  · simp [h, mapKeys]

theorem mapKeys_nodup_set {α : Type} (m : List (String × α)) (k : String)
    (v : α) (h : (mapKeys m).Nodup) : (mapKeys (mapSet m k v)).Nodup := by
  rw [mapKeys_set]
  by_cases hh : mapHas m k = true
  · rw [if_pos hh]
    exact h
  · rw [if_neg hh]
    have h' : mapHas m k = false := by simpa using hh
    rw [mapHas_eq_false_iff] at h'
    have hk : k ∉ mapKeys m := by
      simp only [mapKeys, List.mem_map]
      rintro ⟨p, hp, rfl⟩
      exact h' p hp rfl
    simp only [List.nodup_append, List.nodup_singleton, true_and]
    refine ⟨h, ?_⟩
    intro a ha hak
    simp only [List.mem_singleton] at hak
    exact hk (hak ▸ ha)

/-- Invariant of the merge maps: every stored pair is keyed by the id of
its value. -/
def mapKeyed {α : Type} (key : α → String) (m : List (String × α)) : Prop :=
  ∀ p ∈ m, p.1 = key p.2

theorem mapKeyed_set {α : Type} (key : α → String) (m : List (String × α))
    (v : α) (h : mapKeyed key m) : mapKeyed key (mapSet m (key v) v) := by
  unfold mapSet
  by_cases hh : mapHas m (key v)
  · simp only [hh, if_true]
    intro p hp
    rw [List.mem_map] at hp
    obtain ⟨q, hq, rfl⟩ := hp
    by_cases hqk : q.1 = key v
    · simp [hqk]
    · simp [beq_iff_eq, hqk]
      exact h q hq
  · simp only [hh, if_false]
    intro p hp
    rcases List.mem_append.mp hp with hp | hp
    · exact h p hp
    · simp at hp
      simp [hp]

theorem mapGet_mem {α : Type} (m : List (String × α)) (k : String) (v : α)
    (h : mapGet m k = some v) : (k, v) ∈ m := by
  unfold mapGet at h
  cases hf : m.find? (fun p => p.1 == k) with
  | none => simp [hf] at h
  | some p =>
      have hmem := List.mem_of_find?_eq_some hf
      have hpred := List.find?_some hf
      simp [beq_iff_eq] at hpred
      simp [hf] at h
      have : p = (k, v) := by
        cases p
        simp_all
      exact this ▸ hmem

theorem mapGet_isSome_iff_mem_keys {α : Type} (m : List (String × α))
    (k : String) : (mapGet m k).isSome = true ↔ k ∈ mapKeys m := by
  unfold mapGet mapKeys
  constructor
  · intro h
    cases hf : m.find? (fun p => p.1 == k) with
    | none => simp [hf] at h
    | some p =>
        have hmem := List.mem_of_find?_eq_some hf
        have hpred := List.find?_some hf
        simp [beq_iff_eq] at hpred
        exact List.mem_map.mpr ⟨p, hmem, hpred⟩
  · intro h
    rcases List.mem_map.mp h with ⟨p, hp, rfl⟩
    cases hf : m.find? (fun q => q.1 == p.1) with
    | none =>
        rw [List.find?_eq_none] at hf
        have := hf p hp
        simp at this
    | some q => simp [hf]

theorem mapValues_count_eq_one {α : Type} [DecidableEq α] (key : α → String)
    (m : List (String × α)) (x : α) (hkeyed : mapKeyed key m)
    (hnodup : (mapKeys m).Nodup) (hget : mapGet m (key x) = some x) :
    (mapValues m).count x = 1 := by
  induction m with
  | nil => simp [mapGet] at hget
  | cons p rest ih =>
      have hkeyrest : mapKeyed key rest := fun q hq => hkeyed q (List.mem_cons_of_mem p hq)
      have hnodupr : (mapKeys rest).Nodup := (List.nodup_cons.mp hnodup).2
      have hpnotin : p.1 ∉ mapKeys rest := (List.nodup_cons.mp hnodup).1
      by_cases hp : p.1 = key x
      · have hbeq : (p.1 == key x) = true := by simp [hp]
        unfold mapGet at hget
        rw [List.find?_cons] at hget
        simp only [hbeq] at hget
        simp at hget
        have hcount0 : (mapValues rest).count x = 0 := by
          rw [List.count_eq_zero]
          intro hmem
          rcases List.mem_map.mp hmem with ⟨q, hq, hq2⟩
          have hq1 : q.1 = key x := by rw [hkeyrest q hq, hq2]
          exact hpnotin (by rw [hp]; exact hq1 ▸ List.mem_map.mpr ⟨q, hq, rfl⟩)
        simp only [mapValues] at hcount0
        simp [mapValues, hget, List.count_cons, hcount0]
      · have hbeq : (p.1 == key x) = false := by simp [hp]
        unfold mapGet at hget
        rw [List.find?_cons] at hget
        simp only [hbeq] at hget
        have hget' : mapGet rest (key x) = some x := hget
        have hrest := ih hkeyrest hnodupr hget'
        have hpx : p.2 ≠ x := by
          intro hcontr
          exact hp (by rw [hkeyed p (List.mem_cons_self p rest), hcontr])
        simp only [mapValues, List.map_cons, List.count_cons]
        simp only [mapValues] at hrest
        simp [hrest, hpx]

/-! ### Fold characterizations of the merge passes -/

/-- Value left at key `k` after folding `Map.set` over `items` (the pattern
of both merge helpers' first pass and of the engine merge's second pass). -/
theorem setFold_get {α : Type} (key : α → String) (items : List α)
    (init : List (String × α)) (k : String) :
    mapGet (items.foldl (fun m it => mapSet m (key it) it) init) k =
      match lastWith key k items with
      | some x => some x
      | none => mapGet init k := by
  induction items generalizing init with
  | nil => rfl
  | cons it rest ih =>
      simp only [List.foldl_cons, lastWith]
      rw [ih (mapSet init (key it) it)]
      cases hrest : lastWith key k rest with
      | some x => rfl
      | none =>
          by_cases hit : key it = k
          · have hb : (key it == k) = true := by simp [hit]
            simp only [hb, if_true]
            rw [← hit, mapGet_set_self]
          · have hb : ¬ ((key it == k) = true) := by simp [hit]
            simp only [if_neg hb]
            exact mapGet_set_ne init (key it) k it (fun hc => hit hc.symm)

theorem setFold_keys_nodup {α : Type} (key : α → String) (items : List α)
    (init : List (String × α)) (h : (mapKeys init).Nodup) :
    (mapKeys (items.foldl (fun m it => mapSet m (key it) it) init)).Nodup := by
  induction items generalizing init with
  | nil => exact h
  | cons it rest ih =>
      simp only [List.foldl_cons]
      exact ih _ (mapKeys_nodup_set init (key it) it h)

theorem setFold_keyed {α : Type} (key : α → String) (items : List α)
    (init : List (String × α)) (h : mapKeyed key init) :
    mapKeyed key (items.foldl (fun m it => mapSet m (key it) it) init) := by
  induction items generalizing init with
  | nil => exact h
  | cons it rest ih =>
      simp only [List.foldl_cons]
      exact ih _ (mapKeyed_set key init it h)

theorem mapGet_nil {α : Type} (k : String) :
    mapGet ([] : List (String × α)) k = none := rfl

theorem find?_key_of_mem_nodup {α : Type} (key : α → String) (items : List α)
    (a : α) (hmem : a ∈ items) (hn : (items.map key).Nodup) :
    items.find? (fun it => key it == key a) = some a := by
  induction items with
  | nil => cases hmem
  | cons it rest ih =>
      have hnotin : key it ∉ rest.map key := (List.nodup_cons.mp hn).1
      have hrestnd : (rest.map key).Nodup := (List.nodup_cons.mp hn).2
      rw [List.find?_cons]
      by_cases hit : key it = key a
      · have hb : (key it == key a) = true := by simp [hit]
        simp only [hb]
        rcases List.mem_cons.mp hmem with rfl | hmem'
        · rfl
        · exact absurd (by rw [hit]; exact List.mem_map.mpr ⟨a, hmem', rfl⟩) hnotin
      · have hb : (key it == key a) = false := by simp [hit]
        simp only [hb]
        rcases List.mem_cons.mp hmem with rfl | hmem'
        · exact absurd rfl hit
        · exact ih hmem' hrestnd

theorem find?_key_eq_none {α : Type} (key : α → String) (items : List α)
    (k : String) (h : ∀ it ∈ items, key it ≠ k) :
    items.find? (fun it => key it == k) = none := by
  rw [List.find?_eq_none]
  intro a ha
  simpa using h a ha

theorem qlStep_get_self (m : List (String × QuickLaunchItem))
    (it : QuickLaunchItem) :
    mapGet (qlStep m it) it.id =
      some (match mapGet m it.id with
            | none => it
            | some existing =>
                if it.order > existing.order then it else existing) := by
  unfold qlStep
  cases h : mapGet m it.id with
  | none => rw [mapGet_set_self]
  | some existing =>
      dsimp only
      by_cases ho : it.order > existing.order
      · rw [if_pos ho, if_pos ho, mapGet_set_self]
      · rw [if_neg ho, if_neg ho]
        exact h

theorem qlStep_get_ne (m : List (String × QuickLaunchItem))
    (it : QuickLaunchItem) (k : String) (h : k ≠ it.id) :
    mapGet (qlStep m it) k = mapGet m k := by
  unfold qlStep
  cases mapGet m it.id with
  | none => exact mapGet_set_ne m it.id k it h
  | some existing =>
      dsimp only
      by_cases ho : it.order > existing.order
      · rw [if_pos ho]
        exact mapGet_set_ne m it.id k it h
      · rw [if_neg ho]

theorem qlStep_keys_nodup (m : List (String × QuickLaunchItem))
    (it : QuickLaunchItem) (h : (mapKeys m).Nodup) :
    (mapKeys (qlStep m it)).Nodup := by
  unfold qlStep
  cases mapGet m it.id with
  | none => exact mapKeys_nodup_set m it.id it h
  | some existing =>
      dsimp only
      by_cases ho : it.order > existing.order
      · rw [if_pos ho]
        exact mapKeys_nodup_set m it.id it h
      · rw [if_neg ho]
        exact h

theorem qlStep_keyed (m : List (String × QuickLaunchItem))
    (it : QuickLaunchItem) (h : mapKeyed QuickLaunchItem.id m) :
    mapKeyed QuickLaunchItem.id (qlStep m it) := by
  unfold qlStep
  cases mapGet m it.id with
  | none => exact mapKeyed_set QuickLaunchItem.id m it h
  | some existing =>
      dsimp only
      by_cases ho : it.order > existing.order
      · rw [if_pos ho]
        exact mapKeyed_set QuickLaunchItem.id m it h
      · rw [if_neg ho]
        exact h

theorem qlFold_get (items : List QuickLaunchItem)
    (hn : (items.map QuickLaunchItem.id).Nodup)
    (init : List (String × QuickLaunchItem)) (k : String) :
    mapGet (items.foldl qlStep init) k =
      match items.find? (fun it => it.id == k) with
      | none => mapGet init k
      | some lit =>
          some (match mapGet init k with
                | none => lit
                | some existing =>
                    if lit.order > existing.order then lit else existing) := by
  induction items generalizing init with
  | nil => rfl
  | cons it rest ih =>
      have hnotin : it.id ∉ rest.map QuickLaunchItem.id := (List.nodup_cons.mp hn).1
      have hrestnd : (rest.map QuickLaunchItem.id).Nodup := (List.nodup_cons.mp hn).2
      simp only [List.foldl_cons, List.find?_cons]
      rw [ih hrestnd (qlStep init it)]
      by_cases hk : it.id = k
      · have hb : (it.id == k) = true := by simp [hk]
        have hfnone : rest.find? (fun a => a.id == k) = none := by
          apply find?_key_eq_none QuickLaunchItem.id
          intro a ha hak
          exact hnotin (by rw [hk, ← hak]; exact List.mem_map.mpr ⟨a, ha, rfl⟩)
        simp only [hb, hfnone]
        rw [← hk]
        exact qlStep_get_self init it
      · have hb : (it.id == k) = false := by simp [hk]
        simp only [hb]
        rw [qlStep_get_ne init it k (fun hc => hk hc.symm)]

theorem qlFold_keys_nodup (items : List QuickLaunchItem)
    (init : List (String × QuickLaunchItem)) (h : (mapKeys init).Nodup) :
    (mapKeys (items.foldl qlStep init)).Nodup := by
  induction items generalizing init with
  | nil => exact h
  | cons it rest ih =>
      simp only [List.foldl_cons]
      exact ih _ (qlStep_keys_nodup init it h)

theorem qlFold_keyed (items : List QuickLaunchItem)
    (init : List (String × QuickLaunchItem))
    (h : mapKeyed QuickLaunchItem.id init) :
    mapKeyed QuickLaunchItem.id (items.foldl qlStep init) := by
  induction items generalizing init with
  | nil => exact h
  | cons it rest ih =>
      simp only [List.foldl_cons]
      exact ih _ (qlStep_keyed init it h)

/-! ### Characterization of the two merge maps -/

theorem qlMergeMap_get (lq rq : List QuickLaunchItem)
    (hl : (lq.map QuickLaunchItem.id).Nodup)
    (hr : (rq.map QuickLaunchItem.id).Nodup) (k : String) :
    mapGet (qlMergeMap lq rq) k =
      match lq.find? (fun it => it.id == k) with
      | none => rq.find? (fun it => it.id == k)
      | some lit =>
          some (match rq.find? (fun it => it.id == k) with
                | none => lit
                | some rit =>
                    if lit.order > rit.order then lit else rit) := by
  unfold qlMergeMap
  rw [qlFold_get lq hl _ k]
  have hm1 : mapGet (rq.foldl (fun m it => mapSet m it.id it) []) k
      = rq.find? (fun it => it.id == k) := by
    rw [setFold_get QuickLaunchItem.id rq [] k,
      lastWith_eq_find? QuickLaunchItem.id k rq hr]
    cases rq.find? (fun it => it.id == k) <;> rfl
  rw [hm1]

theorem qlMergeMap_keys_nodup (lq rq : List QuickLaunchItem) :
    (mapKeys (qlMergeMap lq rq)).Nodup := by
  unfold qlMergeMap
  exact qlFold_keys_nodup lq _
    (setFold_keys_nodup QuickLaunchItem.id rq [] (by simp [mapKeys]))

theorem qlMergeMap_keyed (lq rq : List QuickLaunchItem) :
    mapKeyed QuickLaunchItem.id (qlMergeMap lq rq) := by
  unfold qlMergeMap
  refine qlFold_keyed lq _ (setFold_keyed QuickLaunchItem.id rq [] ?_)
  intro p hp
  simp at hp

theorem engineMergeMap_get (le re : List SearchEngine)
    (hl : (le.map SearchEngine.id).Nodup)
    (hr : (re.map SearchEngine.id).Nodup) (k : String) :
    mapGet (engineMergeMap le re) k =
      match le.find? (fun e => e.id == k) with
      | some x => some x
      | none => re.find? (fun e => e.id == k) := by
  show mapGet (le.foldl (fun m e => mapSet m e.id e)
      (re.foldl (fun m e => mapSet m e.id e) [])) k = _
  rw [setFold_get SearchEngine.id le _ k,
    lastWith_eq_find? SearchEngine.id k le hl]
  have hm1 : mapGet (re.foldl (fun m e => mapSet m e.id e) []) k
      = re.find? (fun e => e.id == k) := by
    rw [setFold_get SearchEngine.id re [] k,
      lastWith_eq_find? SearchEngine.id k re hr]
    cases re.find? (fun e => e.id == k) <;> rfl
  rw [hm1]
  cases le.find? (fun e => e.id == k) <;> rfl

theorem engineMergeMap_keys_nodup (le re : List SearchEngine) :
    (mapKeys (engineMergeMap le re)).Nodup := by
  unfold engineMergeMap
  exact setFold_keys_nodup SearchEngine.id le _
    (setFold_keys_nodup SearchEngine.id re [] (by simp [mapKeys]))

theorem engineMergeMap_keyed (le re : List SearchEngine) :
    mapKeyed SearchEngine.id (engineMergeMap le re) := by
  unfold engineMergeMap
  refine setFold_keyed SearchEngine.id le _
    (setFold_keyed SearchEngine.id re [] ?_)
  intro p hp
  simp at hp

theorem mergeQuickLaunchItems_perm (lq rq : List QuickLaunchItem) :
    (mergeQuickLaunchItems lq rq).Perm (mapValues (qlMergeMap lq rq)) :=
  List.perm_insertionSort _ _

theorem mapValues_map_key {α : Type} (key : α → String)
    (m : List (String × α)) (h : mapKeyed key m) :
    (mapValues m).map key = mapKeys m := by
  unfold mapValues mapKeys
  rw [List.map_map]
  exact List.map_congr_left (fun p hp => (h p hp).symm)

theorem mem_merged_of_get (lq rq : List QuickLaunchItem) (k : String)
    (x : QuickLaunchItem) (h : mapGet (qlMergeMap lq rq) k = some x) :
    x ∈ mergeQuickLaunchItems lq rq := by
  have hmem : (k, x) ∈ qlMergeMap lq rq := mapGet_mem _ _ _ h
  have hval : x ∈ mapValues (qlMergeMap lq rq) :=
    List.mem_map.mpr ⟨(k, x), hmem, rfl⟩
  exact (mergeQuickLaunchItems_perm lq rq).mem_iff.mpr hval

theorem mem_engines_of_get (le re : List SearchEngine) (k : String)
    (x : SearchEngine) (h : mapGet (engineMergeMap le re) k = some x) :
    x ∈ mergeSearchEngines le re := by
  have hmem : (k, x) ∈ engineMergeMap le re := mapGet_mem _ _ _ h
  exact List.mem_map.mpr ⟨(k, x), hmem, rfl⟩

/-- C1: during a sync round with a downloaded remote snapshot, a `Conflict`
is recorded for each top-level field (settings, quickLaunch,
customSearchEngines) if and only if the timestamps differ by strictly less
than 60000 ms and the serialized field values differ; in particular a
timestamp difference of exactly 59999 ms with differing settings yields a
settings conflict, and a difference of 60001 ms yields no conflict. -/
theorem C1_conflict_window :
    (∀ localData remoteData : SyncData,
      ((⟨"settings", .ofSettings localData.settings remoteData.settings⟩ : SyncConflict)
          ∈ detectConflicts localData remoteData ↔
        ((localData.timestamp - remoteData.timestamp).natAbs < 60000 ∧
          localData.settings ≠ remoteData.settings)) ∧
      ((⟨"quickLaunch", .ofQuickLaunch localData.quickLaunch remoteData.quickLaunch⟩ : SyncConflict)
          ∈ detectConflicts localData remoteData ↔
        ((localData.timestamp - remoteData.timestamp).natAbs < 60000 ∧
          localData.quickLaunch ≠ remoteData.quickLaunch)) ∧
      ((⟨"customSearchEngines",
            .ofEngines localData.customSearchEngines remoteData.customSearchEngines⟩ : SyncConflict)
          ∈ detectConflicts localData remoteData ↔
        ((localData.timestamp - remoteData.timestamp).natAbs < 60000 ∧
          localData.customSearchEngines ≠ remoteData.customSearchEngines))) ∧
    (⟨"settings", .ofSettings (mkSettings "en") (mkSettings "zh")⟩ : SyncConflict)
        ∈ detectConflicts (mkSnap 0 "en") (mkSnap 59999 "zh") ∧
    detectConflicts (mkSnap 0 "en") (mkSnap 60001 "zh") = [] := by
  refine ⟨fun localData remoteData => ?_, by decide, by decide⟩
  unfold detectConflicts
  by_cases ht : (localData.timestamp - remoteData.timestamp).natAbs < 60000 <;>
    simp only [ht, if_true, if_false, List.mem_append] <;>
    refine ⟨?_, ?_, ?_⟩ <;>
    by_cases h1 : localData.settings = remoteData.settings <;>
    by_cases h2 : localData.quickLaunch = remoteData.quickLaunch <;>
    by_cases h3 : localData.customSearchEngines = remoteData.customSearchEngines <;>
    simp_all

theorem findKey_isSome_iff {α : Type} (key : α → String) (items : List α)
    (x : String) :
    (items.find? (fun it => key it == x)).isSome = true ↔
      x ∈ items.map key := by
  rw [List.find?_isSome]
  constructor
  · rintro ⟨a, ha, hpa⟩
    simp only [beq_iff_eq] at hpa
    exact List.mem_map.mpr ⟨a, ha, hpa⟩
  · intro h
    rcases List.mem_map.mp h with ⟨a, ha, rfl⟩
    exact ⟨a, ha, by simp⟩

/-- C2: under merge resolution the shortcut and engine lists are merged by
identifier: each id present on either side appears exactly once, a
one-sided entry is kept as is, and a shortcut id present on both sides with
distinct orders keeps the entry with the higher `order`.  (A `SearchEngine`
carries no `order` field; on an engine id collision the local entry is
kept, so the order-tiebreak clause is vacuous for engines.) -/
theorem C2_merge_union (lq rq : List QuickLaunchItem)
    (le re : List SearchEngine)
    (hlq : (lq.map QuickLaunchItem.id).Nodup)
    (hrq : (rq.map QuickLaunchItem.id).Nodup)
    (hle : (le.map SearchEngine.id).Nodup)
    (hre : (re.map SearchEngine.id).Nodup) :
    ((mergeQuickLaunchItems lq rq).map QuickLaunchItem.id).Nodup ∧
    (∀ x : String, x ∈ (mergeQuickLaunchItems lq rq).map QuickLaunchItem.id ↔
      x ∈ lq.map QuickLaunchItem.id ∨ x ∈ rq.map QuickLaunchItem.id) ∧
    (∀ a b, a ∈ lq → b ∈ rq → a.id = b.id → a.order ≠ b.order →
      (if a.order > b.order then a else b) ∈ mergeQuickLaunchItems lq rq) ∧
    (∀ a ∈ lq, (∀ b ∈ rq, b.id ≠ a.id) → a ∈ mergeQuickLaunchItems lq rq) ∧
    (∀ b ∈ rq, (∀ a ∈ lq, a.id ≠ b.id) → b ∈ mergeQuickLaunchItems lq rq) ∧
    ((mergeSearchEngines le re).map SearchEngine.id).Nodup ∧
    (∀ x : String, x ∈ (mergeSearchEngines le re).map SearchEngine.id ↔
      x ∈ le.map SearchEngine.id ∨ x ∈ re.map SearchEngine.id) ∧
    (∀ e ∈ le, e ∈ mergeSearchEngines le re) ∧
    (∀ e ∈ re, (∀ a ∈ le, a.id ≠ e.id) → e ∈ mergeSearchEngines le re) := by
  have hperm : ((mergeQuickLaunchItems lq rq).map QuickLaunchItem.id).Perm
      (mapKeys (qlMergeMap lq rq)) := by
    have h1 := (mergeQuickLaunchItems_perm lq rq).map QuickLaunchItem.id
    rwa [mapValues_map_key QuickLaunchItem.id _ (qlMergeMap_keyed lq rq)] at h1
  have hengeq : (mergeSearchEngines le re).map SearchEngine.id
      = mapKeys (engineMergeMap le re) :=
    mapValues_map_key SearchEngine.id _ (engineMergeMap_keyed le re)
  refine ⟨?_, ?_, ?_, ?_, ?_, ?_, ?_, ?_, ?_⟩
  · exact hperm.nodup_iff.mpr (qlMergeMap_keys_nodup lq rq)
  · intro x
    rw [hperm.mem_iff, ← mapGet_isSome_iff_mem_keys,
      ← findKey_isSome_iff QuickLaunchItem.id lq x,
      ← findKey_isSome_iff QuickLaunchItem.id rq x,
      qlMergeMap_get lq rq hlq hrq x]
    cases lq.find? (fun it => it.id == x) <;>
      cases rq.find? (fun it => it.id == x) <;> simp
  · intro a b ha hb hid hord
    have hfl : lq.find? (fun it => it.id == a.id) = some a :=
      find?_key_of_mem_nodup QuickLaunchItem.id lq a ha hlq
    have hfr : rq.find? (fun it => it.id == a.id) = some b := by
      rw [hid]
      exact find?_key_of_mem_nodup QuickLaunchItem.id rq b hb hrq
    have hget : mapGet (qlMergeMap lq rq) a.id
        = some (if a.order > b.order then a else b) := by
      rw [qlMergeMap_get lq rq hlq hrq a.id, hfl, hfr]
    exact mem_merged_of_get lq rq a.id _ hget
  · intro a ha hnone
    have hfl : lq.find? (fun it => it.id == a.id) = some a :=
      find?_key_of_mem_nodup QuickLaunchItem.id lq a ha hlq
    have hfr : rq.find? (fun it => it.id == a.id) = none :=
      find?_key_eq_none QuickLaunchItem.id rq a.id (fun b hb => hnone b hb)
    have hget : mapGet (qlMergeMap lq rq) a.id = some a := by
      rw [qlMergeMap_get lq rq hlq hrq a.id, hfl, hfr]
    exact mem_merged_of_get lq rq a.id a hget
  · intro b hb hnone
    have hfl : lq.find? (fun it => it.id == b.id) = none :=
      find?_key_eq_none QuickLaunchItem.id lq b.id (fun a ha => hnone a ha)
    have hfr : rq.find? (fun it => it.id == b.id) = some b :=
      find?_key_of_mem_nodup QuickLaunchItem.id rq b hb hrq
    have hget : mapGet (qlMergeMap lq rq) b.id = some b := by
      rw [qlMergeMap_get lq rq hlq hrq b.id, hfl, hfr]
    exact mem_merged_of_get lq rq b.id b hget
  · rw [hengeq]
    exact engineMergeMap_keys_nodup le re
  · intro x
    rw [hengeq, ← mapGet_isSome_iff_mem_keys,
      ← findKey_isSome_iff SearchEngine.id le x,
      ← findKey_isSome_iff SearchEngine.id re x,
      engineMergeMap_get le re hle hre x]
    cases le.find? (fun e => e.id == x) <;>
      cases re.find? (fun e => e.id == x) <;> simp
  · intro e he
    have hfl : le.find? (fun a => a.id == e.id) = some e :=
      find?_key_of_mem_nodup SearchEngine.id le e he hle
    have hget : mapGet (engineMergeMap le re) e.id = some e := by
      rw [engineMergeMap_get le re hle hre e.id, hfl]
    exact mem_engines_of_get le re e.id e hget
  · intro e he hnone
    have hfl : le.find? (fun a => a.id == e.id) = none :=
      find?_key_eq_none SearchEngine.id le e.id (fun a ha => hnone a ha)
    have hfr : re.find? (fun a => a.id == e.id) = some e :=
      find?_key_of_mem_nodup SearchEngine.id re e he hre
    have hget : mapGet (engineMergeMap le re) e.id = some e := by
      rw [engineMergeMap_get le re hle hre e.id, hfl, hfr]
    exact mem_engines_of_get le re e.id e hget

theorem C2_merge_union_witness :
    (([sampleItem "base" 0, sampleItem "a" 5].map QuickLaunchItem.id).Nodup ∧
     ([sampleItem "base" 0, sampleItem "b" 7].map QuickLaunchItem.id).Nodup ∧
     ([sampleEngine "g"].map SearchEngine.id).Nodup ∧
     ([sampleEngine "ddg"].map SearchEngine.id).Nodup) ∧
    sampleItem "a" 5 ∈ mergeQuickLaunchItems
      [sampleItem "base" 0, sampleItem "a" 5]
      [sampleItem "base" 0, sampleItem "b" 7] ∧
    sampleItem "b" 7 ∈ mergeQuickLaunchItems
      [sampleItem "base" 0, sampleItem "a" 5]
      [sampleItem "base" 0, sampleItem "b" 7] ∧
    ((mergeQuickLaunchItems
      [sampleItem "base" 0, sampleItem "a" 5]
      [sampleItem "base" 0, sampleItem "b" 7]).map QuickLaunchItem.id).Nodup :=
  ⟨⟨by decide, by decide, by decide, by decide⟩,
    (C2_merge_union _ _ [sampleEngine "g"] [sampleEngine "ddg"]
      (by decide) (by decide) (by decide) (by decide)).2.2.2.1
      (sampleItem "a" 5) (by decide) (by decide),
    (C2_merge_union _ _ [sampleEngine "g"] [sampleEngine "ddg"]
      (by decide) (by decide) (by decide) (by decide)).2.2.2.2.1
      (sampleItem "b" 7) (by decide) (by decide),
    (C2_merge_union _ _ [sampleEngine "g"] [sampleEngine "ddg"]
      (by decide) (by decide) (by decide) (by decide)).1⟩

/-- C9: merging a snapshot with itself keeps every shortcut and engine
entry exactly once and leaves the settings, timestamp and metadata
unchanged. -/
theorem C9_merge_idempotent (s : SyncData)
    (hql : (s.quickLaunch.map QuickLaunchItem.id).Nodup)
    (hce : (s.customSearchEngines.map SearchEngine.id).Nodup) :
    (∀ it ∈ s.quickLaunch, (mergeData s s).quickLaunch.count it = 1) ∧
    (∀ e ∈ s.customSearchEngines,
      (mergeData s s).customSearchEngines.count e = 1) ∧
    (mergeData s s).settings = s.settings ∧
    (mergeData s s).timestamp = s.timestamp ∧
    (mergeData s s).metadata = s.metadata := by
  refine ⟨?_, ?_, ?_, ?_, ?_⟩
  · intro it hit
    have hget : mapGet (qlMergeMap s.quickLaunch s.quickLaunch) it.id
        = some it := by
      rw [qlMergeMap_get _ _ hql hql it.id,
        find?_key_of_mem_nodup QuickLaunchItem.id s.quickLaunch it hit hql]
      simp [lt_irrefl]
    have hcount := mapValues_count_eq_one QuickLaunchItem.id _ it
      (qlMergeMap_keyed _ _) (qlMergeMap_keys_nodup _ _) hget
    show (mergeQuickLaunchItems s.quickLaunch s.quickLaunch).count it = 1
    rw [(mergeQuickLaunchItems_perm s.quickLaunch s.quickLaunch).count_eq]
    exact hcount
  · intro e he
    have hget : mapGet (engineMergeMap s.customSearchEngines
        s.customSearchEngines) e.id = some e := by
      rw [engineMergeMap_get _ _ hce hce e.id,
        find?_key_of_mem_nodup SearchEngine.id s.customSearchEngines e he hce]
    exact mapValues_count_eq_one SearchEngine.id _ e
      (engineMergeMap_keyed _ _) (engineMergeMap_keys_nodup _ _) hget
  · simp [mergeData]
  · simp [mergeData]
  · simp [mergeData]

theorem C9_merge_idempotent_witness :
    (sampleSnap.quickLaunch.map QuickLaunchItem.id).Nodup ∧
    (sampleSnap.customSearchEngines.map SearchEngine.id).Nodup ∧
    ((∀ it ∈ sampleSnap.quickLaunch,
        (mergeData sampleSnap sampleSnap).quickLaunch.count it = 1) ∧
      (∀ e ∈ sampleSnap.customSearchEngines,
        (mergeData sampleSnap sampleSnap).customSearchEngines.count e = 1) ∧
      (mergeData sampleSnap sampleSnap).settings = sampleSnap.settings ∧
      (mergeData sampleSnap sampleSnap).timestamp = sampleSnap.timestamp ∧
      (mergeData sampleSnap sampleSnap).metadata = sampleSnap.metadata) :=
  ⟨by decide, by decide, C9_merge_idempotent sampleSnap (by decide) (by decide)⟩

/-! ### Transport error classification and retry -/

/-- C8 counterexample: status 423 is not given a dedicated `Locked` kind —
the `WebDAVError` enum has no such member and `categorizeError` classifies
423 as `SERVER_ERROR`, the same kind as a generic 5xx response. -/
theorem C8_locked_counterexample :
    (categorizeError 423 "Locked").type = WebDAVError.SERVER_ERROR ∧
    (categorizeError 423 "Locked").type = (categorizeError 502 "Bad Gateway").type := by
  constructor <;> rfl

/-- C8 (amended): the classification maps 401 to `AUTH_ERROR`, 403 to
`FORBIDDEN`, 404 to `NOT_FOUND`, 409 to `CONFLICT`, and every other
failing status — 423 and 507 included — to `SERVER_ERROR`. -/
theorem C8_error_classification (status : Nat) (statusText : String) :
    (categorizeError status statusText).type = claimedErrorKind status := by
  unfold categorizeError claimedErrorKind
  split_ifs <;> rfl

theorem requestModel_retry_step (beh : Nat → FetchOutcome) (e : JsError)
    (r : Nat) (hb : beh r = .exc e) (hr : r < 3)
    (hs : shouldRetry e = true) :
    requestModel beh r =
      ⟨(requestModel beh (r + 1)).status,
        (requestModel beh (r + 1)).errorType,
        (requestModel beh (r + 1)).attempts + 1,
        1000 * (r + 1) :: (requestModel beh (r + 1)).delays⟩ := by
  rw [requestModel]
  simp only [hb]
  rw [dif_pos (⟨hr, hs⟩ : r < 3 ∧ shouldRetry e = true)]

theorem requestModel_exc_stop (beh : Nat → FetchOutcome) (e : JsError)
    (hb : beh 3 = .exc e) :
    requestModel beh 3 = ⟨0, some .NETWORK_ERROR, 1, []⟩ := by
  rw [requestModel]
  simp only [hb]
  rw [dif_neg (fun hcon => absurd hcon.1 (lt_irrefl 3))]

/-- C3: a request whose every attempt throws a retryable network-level
error is attempted exactly 4 = 1 + 3 times, sleeping `attempt × 1000` ms
between consecutive attempts, and surfaces a `NETWORK_ERROR`; a request
answered with a non-2xx HTTP status is classified and not retried: one
attempt, no delays. -/
theorem C3_retry_ceiling :
    (∀ (beh : Nat → FetchOutcome) (e : JsError),
      (∀ n, beh n = .exc e) → shouldRetry e = true →
      requestModel beh 0 =
        ⟨0, some .NETWORK_ERROR, 4, [1000, 2000, 3000]⟩) ∧
    (∀ (beh : Nat → FetchOutcome) (status : Nat) (statusText : String),
      beh 0 = .http status statusText → ¬(200 ≤ status ∧ status < 300) →
      requestModel beh 0 =
        ⟨status, some (categorizeError status statusText).type, 1, []⟩) := by
  constructor
  · intro beh e hbeh hretry
    have h3 := requestModel_exc_stop beh e (hbeh 3)
    have h2 := requestModel_retry_step beh e 2 (hbeh 2) (by omega) hretry
    have h1 := requestModel_retry_step beh e 1 (hbeh 1) (by omega) hretry
    have h0 := requestModel_retry_step beh e 0 (hbeh 0) (by omega) hretry
    rw [h0, h1, h2, h3]
  · intro beh status statusText hb hnok
    rw [requestModel]
    simp only [hb]
    rw [if_neg hnok]

theorem C3_retry_ceiling_witness :
    ((∀ n : Nat,
        (fun _ : Nat => FetchOutcome.exc ⟨"TypeError", "Failed to fetch"⟩) n
          = FetchOutcome.exc ⟨"TypeError", "Failed to fetch"⟩) ∧
      shouldRetry ⟨"TypeError", "Failed to fetch"⟩ = true ∧
      requestModel (fun _ => .exc ⟨"TypeError", "Failed to fetch"⟩) 0 =
        ⟨0, some .NETWORK_ERROR, 4, [1000, 2000, 3000]⟩) ∧
    ((fun _ : Nat => FetchOutcome.http 404 "Not Found") 0
        = .http 404 "Not Found" ∧
      ¬(200 ≤ 404 ∧ 404 < 300) ∧
      requestModel (fun _ => .http 404 "Not Found") 0 =
        ⟨404, some (categorizeError 404 "Not Found").type, 1, []⟩) :=
  ⟨⟨fun _ => rfl, by decide,
      C3_retry_ceiling.1 _ _ (fun _ => rfl) (by decide)⟩,
    ⟨rfl, by decide,
      C3_retry_ceiling.2 _ 404 "Not Found" rfl (by decide)⟩⟩

/-! ### Device listing -/

/-- C4: the device-id extraction of `getAvailableDevices` uses the pattern
`sync_([^_]+)_\d+\.json$`, whose capture cannot contain an underscore.
The ids this application generates (`device_<millis>_<random>`) always
contain underscores, so after an upload from such a device the listing is
empty instead of the singleton the claim states; an underscore-free id is
extracted as claimed. -/
theorem C4_device_listing_bug :
    getAvailableDevicesModel [uploadFilePath "/newTab" "device_1_a" 2] = [] ∧
    getAvailableDevicesModel [uploadFilePath "/newTab" "deviceA" 2] = ["deviceA"] := by
  constructor <;> rfl

/-! ### Local export/import round trip and validation -/

/-- C5 counterexample: a well-typed snapshot whose settings carry the empty
`language` string fails re-import, because `validateImportData` treats the
empty string as falsy — `import(export(S))` does not succeed for every
settings object. -/
theorem C5_roundtrip_counterexample :
    (importData (toRawLocal (exportData { mkSettings "en" with language := "" }
      [] [] "dev1" "Chrome Browser" 5 "2026-01-01T00:00:00.000Z"))).success
      = false := by
  rfl

/-- C5 (amended): for a snapshot whose settings `language` is nonempty and
whose shortcuts all carry nonempty `id`, `name` and `url`, re-importing an
export succeeds and returns the settings, shortcut and engine payloads
unchanged; `timestamp`, `deviceId` and the metadata are the values export
freshly stamped. -/
theorem C5_export_import_roundtrip (settings : AppSettings)
    (quickLaunch : List QuickLaunchItem)
    (customSearchEngines : List SearchEngine)
    (deviceId deviceName : String) (now : Int) (isoDate : String)
    (hlang : settings.language ≠ "") (hdate : isoDate ≠ "")
    (hitems : ∀ it ∈ quickLaunch, it.id ≠ "" ∧ it.name ≠ "" ∧ it.url ≠ "") :
    importData (toRawLocal (exportData settings quickLaunch
        customSearchEngines deviceId deviceName now isoDate)) =
      { success := true
        message := "Data imported successfully"
        syncedData := some
          { version := "1.0.0"
            timestamp := now
            deviceId := deviceId
            settings := some (toRawSettings settings)
            quickLaunch := some (quickLaunch.map toRawItem)
            customSearchEngines := customSearchEngines
            metadata :=
              { lastModified := now, deviceName := deviceName,
                appVersion := "1.0.0", conflictResolution := .latest } } } := by
  have hval : validateImportData (toRawLocal (exportData settings quickLaunch
      customSearchEngines deviceId deviceName now isoDate)) = true := by
    simp only [validateImportData, toRawLocal, toRawSyncData, toRawSettings,
      exportData, truthyStr]
    simp only [Bool.and_eq_true, bne_iff_ne, ne_eq, Option.isSome_some]
    refine ⟨⟨by decide, hdate⟩, ⟨⟨hlang, trivial⟩, trivial⟩, ?_⟩
    rw [List.all_eq_true]
    intro raw hraw
    rcases List.mem_map.mp hraw with ⟨it, hit, rfl⟩
    obtain ⟨h1, h2, h3⟩ := hitems it hit
    simp [toRawItem, truthyStr, h1, h2, h3]
  unfold importData
  rw [if_pos hval]
  rfl

theorem C5_export_import_roundtrip_witness :
    ((mkSettings "en").language ≠ "" ∧
      "2026-01-01T00:00:00.000Z" ≠ "" ∧
      (∀ it ∈ [sampleItem "a" 1], it.id ≠ "" ∧ it.name ≠ "" ∧ it.url ≠ "")) ∧
    importData (toRawLocal (exportData (mkSettings "en") [sampleItem "a" 1]
        [sampleEngine "g"] "dev1" "Chrome Browser" 5
        "2026-01-01T00:00:00.000Z")) =
      { success := true
        message := "Data imported successfully"
        syncedData := some
          { version := "1.0.0"
            timestamp := 5
            deviceId := "dev1"
            settings := some (toRawSettings (mkSettings "en"))
            quickLaunch := some ([sampleItem "a" 1].map toRawItem)
            customSearchEngines := [sampleEngine "g"]
            metadata :=
              { lastModified := 5, deviceName := "Chrome Browser",
                appVersion := "1.0.0", conflictResolution := .latest } } } :=
  ⟨⟨by decide, by decide, by decide⟩,
    C5_export_import_roundtrip _ _ _ _ _ _ _ (by decide) (by decide)
      (by decide)⟩

/-- C6: every envelope that fails structural validation — in particular
any envelope whose payload is missing the `quickLaunch` array — is
rejected with `success = false` and the message `Invalid data format`, and
no parsed data is handed back to the caller, whose state is untouched. -/
theorem C6_import_validation_rejection :
    (∀ d : RawLocalSyncData, validateImportData d = false →
      importData d = ⟨false, "Invalid data format", none⟩) ∧
    (∀ (d : RawLocalSyncData) (sd : RawSyncData), d.data = some sd →
      sd.quickLaunch = none → validateImportData d = false) := by
  constructor
  · intro d hv
    unfold importData
    rw [if_neg (by simp [hv])]
  · intro d sd hd hq
    unfold validateImportData
    rw [hd]
    cases hs : sd.settings <;> simp [hq]

theorem C6_import_validation_rejection_witness :
    validateImportData sampleBadEnvelope = false ∧
    importData sampleBadEnvelope = ⟨false, "Invalid data format", none⟩ := by
  have hval := C6_import_validation_rejection.2 sampleBadEnvelope _ rfl rfl
  exact ⟨hval, C6_import_validation_rejection.1 sampleBadEnvelope hval⟩

/-! ### Orchestrator guards -/

/-- C7 counterexample: a call that arrives while the status is `syncing`
but sync has been disabled is rejected with the message `Sync is
disabled`, not `Sync already in progress` — the disabled guard runs
first. -/
theorem C7_already_syncing_counterexample :
    sampleStateSyncing.status = .syncing ∧
    (syncModel sampleCfgDisabled sampleStateSyncing "dev1" "Chrome Browser" 5
        (mkSettings "en") [] [] sampleDownloadNone
        (fun _ => .ok)).result.message = "Sync is disabled" ∧
    "Sync is disabled" ≠ "Sync already in progress" := by
  refine ⟨rfl, rfl, by decide⟩

/-- C7 (amended): while sync is enabled, a call that arrives with the
status already `syncing` — from the timer or a manual trigger alike — is
rejected with `success = false` and message `Sync already in progress`,
emits no events, leaves the `SyncState` unchanged and schedules nothing;
with sync disabled such a call is also rejected without events or state
change, but with the message `Sync is disabled`. -/
theorem C7_mutual_exclusion (cfg : ManagerSyncSettings) (st : SyncState)
    (deviceId deviceName : String) (now : Int) (settings : AppSettings)
    (quickLaunch : List QuickLaunchItem)
    (customSearchEngines : List SearchEngine) (download : SyncResult)
    (upload : SyncData → UploadOutcome)
    (hen : cfg.enabled = true) (hst : st.status = .syncing) :
    syncModel cfg st deviceId deviceName now settings quickLaunch
        customSearchEngines download upload =
      { result := ⟨false, "Sync already in progress", none, none⟩,
        state := st, events := [], retryScheduled := false } := by
  unfold syncModel
  rw [if_neg (by simp [hen]), if_pos hst]

theorem C7_mutual_exclusion_witness :
    sampleCfgEnabled.enabled = true ∧
    sampleStateSyncing.status = .syncing ∧
    syncModel sampleCfgEnabled sampleStateSyncing "dev1" "Chrome Browser" 5
        (mkSettings "en") [] [] sampleDownloadNone (fun _ => .ok) =
      { result := ⟨false, "Sync already in progress", none, none⟩,
        state := sampleStateSyncing, events := [], retryScheduled := false } :=
  ⟨rfl, rfl, C7_mutual_exclusion _ _ _ _ _ _ _ _ _ _ rfl rfl⟩

/-- C10: a call made while sync is disabled returns `success = false` with
message `Sync is disabled`, emits no events, leaves the state unchanged and
schedules nothing — for every starting state (the already-`syncing` state
included, so the disabled guard precedes the mutual-exclusion guard) and
for every download/upload behavior (so no provider call is involved). -/
theorem C10_disabled_guard (cfg : ManagerSyncSettings) (st : SyncState)
    (deviceId deviceName : String) (now : Int) (settings : AppSettings)
    (quickLaunch : List QuickLaunchItem)
    (customSearchEngines : List SearchEngine) (download : SyncResult)
    (upload : SyncData → UploadOutcome) (h : cfg.enabled = false) :
    syncModel cfg st deviceId deviceName now settings quickLaunch
        customSearchEngines download upload =
      { result := ⟨false, "Sync is disabled", none, none⟩, state := st,
        events := [], retryScheduled := false } := by
  unfold syncModel
  rw [if_pos h]

theorem C10_disabled_guard_witness :
    sampleCfgDisabled.enabled = false ∧
    syncModel sampleCfgDisabled sampleStateSyncing "dev2" "Firefox Browser" 9
        (mkSettings "zh") [sampleItem "a" 1] [sampleEngine "g"]
        sampleDownloadNone (fun _ => .fail "upload never reached") =
      { result := ⟨false, "Sync is disabled", none, none⟩,
        state := sampleStateSyncing, events := [], retryScheduled := false } :=
  ⟨rfl, C10_disabled_guard _ _ _ _ _ _ _ _ _ _ rfl⟩

end NewTab
